import Mathlib

/-!
Shallow embedding of the frame-synchronized command submission and
resource-lifetime core of the patoka renderer
(src/render/hal/vulkan: renderer.rs, command_list.rs, sync.rs,
descriptor_set.rs, image.rs, mod.rs), together with proofs about it.

Machine integers are modelled as Nat / Int; Vulkan bitmask flags are Nat
bitmasks with the bit values of the Vulkan headers; Vulkan enums are Int
newtypes as in the ash bindings.  A native call that the Rust code
unwraps is modelled as a function of the call result: an Ok result
continues, an Err result panics (Option none / a panicked outcome).
-/

namespace Patoka

/-- Embeds the constant FRAME_OVERLAP from src/render/hal/vulkan/mod.rs. -/
def FRAME_OVERLAP : Nat := 2

/-- Embeds vk ImageLayout, an i32 newtype in the ash bindings; the numeric
values are the ones of the Vulkan headers. -/
structure ImageLayout where
  val : Int
deriving DecidableEq

/-- Embeds vk ImageLayout UNDEFINED. -/
def ImageLayout.UNDEFINED : ImageLayout := ⟨0⟩

/-- Embeds vk ImageLayout GENERAL. -/
def ImageLayout.GENERAL : ImageLayout := ⟨1⟩

/-- Embeds vk ImageLayout COLOR_ATTACHMENT_OPTIMAL. -/
def ImageLayout.COLOR_ATTACHMENT_OPTIMAL : ImageLayout := ⟨2⟩

/-- Embeds vk ImageLayout DEPTH_STENCIL_ATTACHMENT_OPTIMAL. -/
def ImageLayout.DEPTH_STENCIL_ATTACHMENT_OPTIMAL : ImageLayout := ⟨3⟩

/-- Embeds vk ImageLayout TRANSFER_SRC_OPTIMAL. -/
def ImageLayout.TRANSFER_SRC_OPTIMAL : ImageLayout := ⟨6⟩

/-- Embeds vk ImageLayout TRANSFER_DST_OPTIMAL. -/
def ImageLayout.TRANSFER_DST_OPTIMAL : ImageLayout := ⟨7⟩

/-- Embeds vk ImageLayout DEPTH_ATTACHMENT_OPTIMAL (from Vulkan 1.2). -/
def ImageLayout.DEPTH_ATTACHMENT_OPTIMAL : ImageLayout := ⟨1000241000⟩

/-- Embeds vk ImageLayout PRESENT_SRC_KHR. -/
def ImageLayout.PRESENT_SRC_KHR : ImageLayout := ⟨1000001002⟩

/-- Embeds vk ImageAspectFlags COLOR (bit 0). -/
def ASPECT_COLOR : Nat := 0x1

/-- Embeds vk ImageAspectFlags DEPTH (bit 1). -/
def ASPECT_DEPTH : Nat := 0x2

/-- Embeds vk AccessFlags2 MEMORY_READ. -/
def ACCESS2_MEMORY_READ : Nat := 0x00008000

/-- Embeds vk AccessFlags2 MEMORY_WRITE. -/
def ACCESS2_MEMORY_WRITE : Nat := 0x00010000

/-- Embeds vk PipelineStageFlags2 ALL_COMMANDS. -/
def STAGE2_ALL_COMMANDS : Nat := 0x00010000

/-- Embeds the fields of the vk ImageMemoryBarrier2 value built by
CommandList::transition_image_layout (command_list.rs lines 69 to 77),
with the subresource range reduced to its aspect mask (the other
subresource fields are the constants full mip / array ranges). -/
structure ImageMemoryBarrier2 where
  srcStageMask : Nat
  srcAccessMask : Nat
  dstStageMask : Nat
  dstAccessMask : Nat
  oldLayout : ImageLayout
  newLayout : ImageLayout
  aspectMask : Nat
  image : Nat
deriving DecidableEq

/-- Embeds CommandList::transition_image_layout (command_list.rs lines
61 to 86) as the barrier it records: the aspect mask is DEPTH when the
new layout equals DEPTH_ATTACHMENT_OPTIMAL and COLOR otherwise; the
stage masks are ALL_COMMANDS on both sides; the source access mask is
MEMORY_WRITE and the destination access mask is
MEMORY_WRITE or MEMORY_READ. -/
def transition_image_layout (image : Nat) (old_layout new_layout : ImageLayout) :
    ImageMemoryBarrier2 :=
  let aspect_mask :=
    if new_layout = ImageLayout.DEPTH_ATTACHMENT_OPTIMAL then ASPECT_DEPTH else ASPECT_COLOR
  { srcStageMask := STAGE2_ALL_COMMANDS
    srcAccessMask := ACCESS2_MEMORY_WRITE
    dstStageMask := STAGE2_ALL_COMMANDS
    dstAccessMask := ACCESS2_MEMORY_WRITE ||| ACCESS2_MEMORY_READ
    oldLayout := old_layout
    newLayout := new_layout
    aspectMask := aspect_mask
    image := image }

/-- C3: for every pair of old and new layouts, the barrier built by
transition_image_layout selects the depth aspect mask if and only if the
new (target) layout is DEPTH_ATTACHMENT_OPTIMAL, and selects the color
aspect mask if and only if the target layout is anything else. -/
theorem transition_aspect_mask_depth_iff (image : Nat) (old_layout new_layout : ImageLayout) :
    ((transition_image_layout image old_layout new_layout).aspectMask = ASPECT_DEPTH
      ↔ new_layout = ImageLayout.DEPTH_ATTACHMENT_OPTIMAL)
    ∧ ((transition_image_layout image old_layout new_layout).aspectMask = ASPECT_COLOR
      ↔ new_layout ≠ ImageLayout.DEPTH_ATTACHMENT_OPTIMAL) := by
  unfold transition_image_layout
  by_cases h : new_layout = ImageLayout.DEPTH_ATTACHMENT_OPTIMAL <;>
    simp [h, ASPECT_DEPTH, ASPECT_COLOR]

/-- C7 counterexample: the claim says the source access mask is the full
read-plus-write mask; at the concrete transition GENERAL to
TRANSFER_SRC_OPTIMAL on image 0 the barrier has source access mask
MEMORY_WRITE only, which differs from MEMORY_WRITE or MEMORY_READ. -/
theorem transition_src_access_not_read_write :
    (transition_image_layout 0 ImageLayout.GENERAL ImageLayout.TRANSFER_SRC_OPTIMAL).srcAccessMask
      ≠ ACCESS2_MEMORY_WRITE ||| ACCESS2_MEMORY_READ := by
  decide

/-- C7 amended: every barrier built by transition_image_layout uses
ALL_COMMANDS for both stage masks, MEMORY_WRITE alone as the source
access mask, and MEMORY_WRITE or MEMORY_READ as the destination access
mask. -/
theorem transition_masks_spec (image : Nat) (old_layout new_layout : ImageLayout) :
    (transition_image_layout image old_layout new_layout).srcStageMask = STAGE2_ALL_COMMANDS
    ∧ (transition_image_layout image old_layout new_layout).dstStageMask = STAGE2_ALL_COMMANDS
    ∧ (transition_image_layout image old_layout new_layout).srcAccessMask
        = ACCESS2_MEMORY_WRITE
    ∧ (transition_image_layout image old_layout new_layout).dstAccessMask
        = ACCESS2_MEMORY_WRITE ||| ACCESS2_MEMORY_READ := by
  unfold transition_image_layout
  exact ⟨rfl, rfl, rfl, rfl⟩

/-- Embeds the result of a native vulkan call as the ash bindings expose
it: Ok with a payload, or Err carrying the raw VkResult code (for
example 2 is VK_TIMEOUT and -4 is VK_ERROR_DEVICE_LOST). -/
inductive NativeResult (α : Type) where
  | ok (value : α)
  | err (code : Int)
deriving DecidableEq

/-- Embeds the mutable state of Renderer (renderer.rs lines 51 to 52):
the two Cell fields frame_number and swapchain_image_idx. -/
structure RState where
  frame_number : Nat
  swapchain_image_idx : Nat
deriving DecidableEq

/-- Embeds the initial Renderer state built by Renderer::new
(renderer.rs lines 420 to 421): both cells start at 0. -/
def initRState : RState := ⟨0, 0⟩

/-- Embeds one operation of the frame loop on the Renderer state.  Each
operation carries the result the underlying native call returns when it
is issued, so a run of the machine covers every success and failure
interleaving. -/
inductive FrameOp where
  | start_frame (acquire : NativeResult Nat)
  | submit (res : NativeResult Unit)
  | present (res : NativeResult Unit)
  | fence_wait (res : NativeResult Unit)
  | fence_reset (res : NativeResult Unit)
deriving DecidableEq

/-- Embeds the effect of one frame-loop call on the Renderer state,
traced from renderer.rs and sync.rs.  start_frame (lines 432 to 437)
unwraps the acquire result and stores the returned image index; submit
(lines 453 to 467) unwraps and changes no cell; present (lines 469 to
481) unwraps the queue_present result and only then replaces
frame_number by (frame_number + 1) % FRAME_OVERLAP, so a failing
queue_present panics before the advance; Fence::wait and Fence::reset
(sync.rs lines 72 to 80) unwrap and change no cell.  A panic is the
none outcome. -/
def stepFrame : FrameOp → RState → Option RState
  | .start_frame (.ok idx), s => some { s with swapchain_image_idx := idx }
  | .start_frame (.err _), _ => none
  | .submit (.ok _), s => some s
  | .submit (.err _), _ => none
  | .present (.ok _), s => some { s with frame_number := (s.frame_number + 1) % FRAME_OVERLAP }
  | .present (.err _), _ => none
  | .fence_wait (.ok _), s => some s
  | .fence_wait (.err _), _ => none
  | .fence_reset (.ok _), s => some s
  | .fence_reset (.err _), _ => none

/-- Runs a sequence of frame-loop operations; a panic anywhere aborts
the run. -/
def runFrame : List FrameOp → RState → Option RState
  | [], s => some s
  | op :: ops, s =>
    match stepFrame op s with
    | some s₁ => runFrame ops s₁
    | none => none

/-- Counts the present operations in a sequence. -/
def countPresents (ops : List FrameOp) : Nat :=
  ops.countP fun op =>
    match op with
    | .present _ => true
    | _ => false

/-- Helper: runFrame over an appended list is the composition of the
two runs. -/
theorem runFrame_append (xs ys : List FrameOp) (s : RState) :
    runFrame (xs ++ ys) s =
      match runFrame xs s with
      | some s₁ => runFrame ys s₁
      | none => none := by
  induction xs generalizing s with
  | nil => simp [runFrame]
  | cons op xs ih =>
    simp only [List.cons_append, runFrame]
    cases stepFrame op s with
    | some s₁ => exact ih s₁
    | none => rfl

/-- Helper: a completed run reaches the frame number that adds one
success per present, modulo FRAME_OVERLAP, from the starting state. -/
theorem runFrame_frame_number (ops : List FrameOp) (s s' : RState)
    (h : runFrame ops s = some s') :
    s'.frame_number = (s.frame_number + countPresents ops) % FRAME_OVERLAP
      ∨ (s'.frame_number = s.frame_number + countPresents ops ∧ countPresents ops = 0) := by
  induction ops generalizing s with
  | nil =>
    simp [runFrame] at h
    right
    simp [countPresents, ← h]
  | cons op ops ih =>
    match op, h with
    | .start_frame (.ok idx), h =>
      simp only [runFrame, stepFrame] at h
      rcases ih _ h with h' | h' <;>
        simp only [countPresents, List.countP_cons] at * <;> simp_all
    | .submit (.ok u), h =>
      simp only [runFrame, stepFrame] at h
      rcases ih _ h with h' | h' <;>
        simp only [countPresents, List.countP_cons] at * <;> simp_all
    | .fence_wait (.ok u), h =>
      simp only [runFrame, stepFrame] at h
      rcases ih _ h with h' | h' <;>
        simp only [countPresents, List.countP_cons] at * <;> simp_all
    | .fence_reset (.ok u), h =>
      simp only [runFrame, stepFrame] at h
      rcases ih _ h with h' | h' <;>
        simp only [countPresents, List.countP_cons] at * <;> simp_all
    | .present (.ok u), h =>
      simp only [runFrame, stepFrame] at h
      have h2 : countPresents (FrameOp.present (NativeResult.ok u) :: ops)
          = countPresents ops + 1 := by
        simp [countPresents, List.countP_cons]
      rcases ih _ h with h' | ⟨h1, hc⟩
      · left
        rw [h2, h']
        simp only [FRAME_OVERLAP]
        omega
      · left
        rw [h2, h1, hc]
        simp only [FRAME_OVERLAP]
        omega

/-- Decides whether a frame-loop operation is a present call. -/
def FrameOp.isPresent : FrameOp → Bool
  | .present _ => true
  | _ => false

/-- C1 counterexample: the claim says the frame-slot advance happens
exactly once per frame regardless of success or failure of the
underlying present call; at the concrete input of a present whose
native queue_present returns VK_ERROR_DEVICE_LOST (-4) in the initial
state, no post-state with the advanced index exists, because the unwrap
panics before frame_number is replaced. -/
theorem present_failure_no_advance :
    ¬ ∃ s', stepFrame (FrameOp.present (NativeResult.err (-4))) initRState = some s'
      ∧ s'.frame_number = (initRState.frame_number + 1) % FRAME_OVERLAP := by
  rintro ⟨s', h, _⟩
  simp [stepFrame] at h

/-- C1 amended: in every run of frame-loop operations that completes
without a native failure, the frame-slot index equals the number of
present calls modulo FRAME_OVERLAP (so each present advances it by
exactly 1 and intervening start_frame calls do not matter); a present
whose underlying native call fails panics before the advance; and no
operation other than present ever changes the frame-slot index. -/
theorem frame_slot_rotation :
    (∀ ops s', runFrame ops initRState = some s' →
      s'.frame_number = countPresents ops % FRAME_OVERLAP)
    ∧ (∀ (code : Int) (s : RState),
      stepFrame (FrameOp.present (NativeResult.err code)) s = none)
    ∧ (∀ (op : FrameOp) (s s' : RState), op.isPresent = false →
      stepFrame op s = some s' → s'.frame_number = s.frame_number) := by
  refine ⟨?_, ?_, ?_⟩
  · intro ops s' h
    rcases runFrame_frame_number ops initRState s' h with h' | ⟨h1, hc⟩
    · simpa [initRState] using h'
    · rw [h1, hc]
      simp [initRState]
  · intro code s
    rfl
  · intro op s s' hop h
    match op, h with
    | .start_frame (.ok idx), h =>
      simp only [stepFrame, Option.some.injEq] at h
      rw [← h]
    | .submit (.ok u), h =>
      simp only [stepFrame, Option.some.injEq] at h
      rw [← h]
    | .present (.ok u), h =>
      simp [FrameOp.isPresent] at hop
    | .fence_wait (.ok u), h =>
      simp only [stepFrame, Option.some.injEq] at h
      rw [← h]
    | .fence_reset (.ok u), h =>
      simp only [stepFrame, Option.some.injEq] at h
      rw [← h]

/-- C1 witness: the amended theorem applied to the concrete sequence
present, start_frame, present, present, whose completed run ends in
frame slot 1 = 3 mod FRAME_OVERLAP. -/
theorem frame_slot_rotation_witness :
    (⟨1, 7⟩ : RState).frame_number
      = countPresents [FrameOp.present (NativeResult.ok ()),
          FrameOp.start_frame (NativeResult.ok 7),
          FrameOp.present (NativeResult.ok ()),
          FrameOp.present (NativeResult.ok ())] % FRAME_OVERLAP :=
  frame_slot_rotation.1
    [FrameOp.present (NativeResult.ok ()),
      FrameOp.start_frame (NativeResult.ok 7),
      FrameOp.present (NativeResult.ok ()),
      FrameOp.present (NativeResult.ok ())]
    ⟨1, 7⟩ (by decide)

/-- Embeds the per-slot array indexing pattern shared by
CommandList::get_current (command_list.rs lines 33 to 36),
Fence::get_raw (sync.rs lines 68 to 70), Semaphore::get_raw (sync.rs
lines 27 to 29) and DescriptorSet::get_current (descriptor_set.rs lines
91 to 93): index the FRAME_OVERLAP-sized per-slot array by the current
frame number; the Rust index expression panics when out of bounds,
which is modelled by Option none. -/
def get_current_slot (slots : List Nat) (r : RState) : Option Nat :=
  slots.get? r.frame_number

/-- C9: every run of frame-loop operations that completes keeps the
frame-slot index strictly below FRAME_OVERLAP (it starts at 0 and is
only ever replaced by its successor modulo FRAME_OVERLAP), so indexing
any per-slot array of length FRAME_OVERLAP by the current frame never
goes out of bounds and never panics. -/
theorem frame_slot_index_in_bounds :
    ∀ ops s', runFrame ops initRState = some s' →
      s'.frame_number < FRAME_OVERLAP
      ∧ ∀ slots : List Nat, slots.length = FRAME_OVERLAP →
        (get_current_slot slots s').isSome = true := by
  intro ops s' h
  have hlt : s'.frame_number < FRAME_OVERLAP := by
    rcases runFrame_frame_number ops initRState s' h with h' | ⟨h1, hc⟩
    · rw [h']
      exact Nat.mod_lt _ (by simp [FRAME_OVERLAP])
    · rw [h1, hc]
      simp [initRState, FRAME_OVERLAP]
  refine ⟨hlt, ?_⟩
  intro slots hlen
  rw [get_current_slot, List.get?_eq_getElem?,
    List.getElem?_eq_getElem (by rw [hlen]; exact hlt)]
  rfl

/-- C9 witness: the theorem applied to the concrete completed run
fence_wait, fence_reset, start_frame, submit, present, with the
concrete per-slot array [10, 20]. -/
theorem frame_slot_index_in_bounds_witness :
    (⟨1, 4⟩ : RState).frame_number < FRAME_OVERLAP
    ∧ (get_current_slot [10, 20] ⟨1, 4⟩).isSome = true := by
  have h := frame_slot_index_in_bounds
    [FrameOp.fence_wait (NativeResult.ok ()),
      FrameOp.fence_reset (NativeResult.ok ()),
      FrameOp.start_frame (NativeResult.ok 4),
      FrameOp.submit (NativeResult.ok ()),
      FrameOp.present (NativeResult.ok ())]
    ⟨1, 4⟩ (by decide)
  exact ⟨h.1, h.2 [10, 20] (by decide)⟩

/-- Embeds how one call of this core surfaces its result to the caller:
a normal return, a panic from an unwrap on an Err native result, or a
returned Backend error value.  The backendErr constructor exists so the
spec claim about error propagation can be stated; the frame-loop code
under scrutiny never produces it. -/
inductive CallOutcome (α : Type) where
  | ok (value : α)
  | panicked
  | backendErr (msg : String)
deriving DecidableEq

/-- Decides whether an outcome is a returned Backend error. -/
def CallOutcome.isBackendErr {α : Type} : CallOutcome α → Bool
  | .backendErr _ => true
  | _ => false

/-- Embeds Renderer::start_frame (renderer.rs lines 432 to 437): the
signature returns unit, the acquire_next_image result (bounded wait of
1000000000 ns) is unwrapped, so an Err acquire result, including
VK_TIMEOUT = 2, panics; a successful acquire stores the returned image
index and leaves the frame number unchanged.  The acquire is issued
exactly once per call. -/
def Renderer.start_frame (acquire : NativeResult Nat) (s : RState) : CallOutcome RState :=
  match acquire with
  | .ok idx => .ok { s with swapchain_image_idx := idx }
  | .err _ => .panicked

/-- Embeds Fence::wait (sync.rs lines 72 to 75): wait_for_fences on the
current-slot fence with timeout 1000000000 ns, unwrapped, so an Err
result, including VK_TIMEOUT = 2, panics. -/
def Fence.wait (res : NativeResult Unit) : CallOutcome Unit :=
  match res with
  | .ok _ => .ok ()
  | .err _ => .panicked

/-- C5 counterexample: the claim says a fence-wait timeout and a
swapchain-acquire failure in start_frame are surfaced to the caller as
a Backend error; at the concrete input VK_TIMEOUT = 2 both calls
surface the failure as a panic, not as a returned Backend error. -/
theorem acquire_and_wait_timeout_panic :
    Renderer.start_frame (NativeResult.err 2) initRState = CallOutcome.panicked
    ∧ (Renderer.start_frame (NativeResult.err 2) initRState).isBackendErr = false
    ∧ Fence.wait (NativeResult.err 2) = CallOutcome.panicked
    ∧ (Fence.wait (NativeResult.err 2)).isBackendErr = false := by
  refine ⟨rfl, rfl, rfl, rfl⟩

/-- C5 amended: start_frame and Fence::wait are not fallible in their
signatures; every failing acquire or fence wait, timeouts included,
panics through unwrap instead of returning a Backend error, and the
call is attempted exactly once with no internal retry; a successful
acquire stores the image index and leaves the frame slot unchanged. -/
theorem acquire_and_wait_failure_semantics :
    (∀ (code : Int) (s : RState),
      Renderer.start_frame (NativeResult.err code) s = CallOutcome.panicked)
    ∧ (∀ code : Int, Fence.wait (NativeResult.err code) = CallOutcome.panicked)
    ∧ (∀ (idx : Nat) (s : RState),
      Renderer.start_frame (NativeResult.ok idx) s = CallOutcome.ok ⟨s.frame_number, idx⟩) := by
  exact ⟨fun _ _ => rfl, fun _ => rfl, fun _ _ => rfl⟩

/-- Identifies one reference-counted GPU resource (the target of an
Arc: a ComputePipeline, PipelineLayout or DescriptorSet). -/
abbrev ResourceId := Nat

/-- Embeds the retained-resource list of CommandList
(command_list.rs lines 13 to 18): the owned_resources vector of shared
handles; CommandList::new starts it empty (line 30). -/
structure CLState where
  owned_resources : List ResourceId
deriving DecidableEq

/-- Embeds the reference-counting world around one CommandList:
external is the multiset of shared handles held outside the command
list (one list entry per live external Arc clone), and commandList is
the command list when it has not been dropped. -/
structure ArcWorld where
  external : List ResourceId
  commandList : Option CLState
deriving DecidableEq

/-- Embeds one resource-lifetime operation: the two bind calls of
CommandList (command_list.rs lines 133 to 150), dropping one external
shared handle, and dropping the CommandList itself. -/
inductive ResOp where
  | bind_compute_pipeline (pipeline : ResourceId)
  | bind_descriptor_set (layout set : ResourceId)
  | dropExternal (r : ResourceId)
  | dropCommandList
deriving DecidableEq

/-- Embeds the effect of one resource-lifetime operation.
bind_compute_pipeline (command_list.rs lines 133 to 136) issues the
native bind and pushes the pipeline handle onto owned_resources;
bind_descriptor_set (lines 138 to 150) pushes the pipeline layout and
the descriptor set; dropping an external handle removes one occurrence
from the external multiset and never touches owned_resources; dropping
the CommandList drops the whole owned_resources vector.  A bind on an
already-dropped CommandList cannot be written in Rust and is none. -/
def stepRes : ResOp → ArcWorld → Option ArcWorld
  | .bind_compute_pipeline p, w =>
    match w.commandList with
    | some cl => some { w with commandList := some ⟨cl.owned_resources ++ [p]⟩ }
    | none => none
  | .bind_descriptor_set l s, w =>
    match w.commandList with
    | some cl => some { w with commandList := some ⟨cl.owned_resources ++ [l, s]⟩ }
    | none => none
  | .dropExternal r, w => some { w with external := w.external.erase r }
  | .dropCommandList, w =>
    match w.commandList with
    | some _ => some { w with commandList := none }
    | none => none

/-- Runs a sequence of resource-lifetime operations. -/
def runRes : List ResOp → ArcWorld → Option ArcWorld
  | [], w => some w
  | op :: ops, w =>
    match stepRes op w with
    | some w₁ => runRes ops w₁
    | none => none

/-- The reference count of a resource: external handles plus the
occurrences retained by the live CommandList. -/
def refCount (w : ArcWorld) (r : ResourceId) : Nat :=
  w.external.count r +
    match w.commandList with
    | some cl => cl.owned_resources.count r
    | none => 0

/-- An Arc target is destroyed exactly when its reference count reaches
zero. -/
def destroyed (w : ArcWorld) (r : ResourceId) : Prop :=
  refCount w r = 0

/-- Decides whether an operation passes the resource to a bind call of
the CommandList. -/
def ResOp.binds : ResOp → ResourceId → Bool
  | .bind_compute_pipeline p, r => p = r
  | .bind_descriptor_set l s, r => l = r || s = r
  | _, _ => false

/-- Helper: a resource retained by the live CommandList stays retained
across any operation other than dropCommandList. -/
theorem stepRes_preserves_retained (op : ResOp) (w w' : ArcWorld) (r : ResourceId)
    (hop : op ≠ ResOp.dropCommandList)
    (hstep : stepRes op w = some w')
    (h : ∃ cl, w.commandList = some cl ∧ r ∈ cl.owned_resources) :
    ∃ cl', w'.commandList = some cl' ∧ r ∈ cl'.owned_resources := by
  obtain ⟨cl, hcl, hr⟩ := h
  match op, hstep with
  | .bind_compute_pipeline p, hstep =>
    rw [stepRes, hcl] at hstep
    simp only [Option.some.injEq] at hstep
    refine ⟨⟨cl.owned_resources ++ [p]⟩, ?_, ?_⟩
    · rw [← hstep]
    · exact List.mem_append_left _ hr
  | .bind_descriptor_set l s, hstep =>
    rw [stepRes, hcl] at hstep
    simp only [Option.some.injEq] at hstep
    refine ⟨⟨cl.owned_resources ++ [l, s]⟩, ?_, ?_⟩
    · rw [← hstep]
    · exact List.mem_append_left _ hr
  | .dropExternal x, hstep =>
    simp only [stepRes, Option.some.injEq] at hstep
    exact ⟨cl, by rw [← hstep]; exact hcl, hr⟩
  | .dropCommandList, hstep =>
    exact absurd rfl hop

/-- Helper: a resource retained by the live CommandList stays retained
across any run containing no dropCommandList. -/
theorem runRes_preserves_retained (ops : List ResOp) (w w' : ArcWorld) (r : ResourceId)
    (hops : ResOp.dropCommandList ∉ ops)
    (hrun : runRes ops w = some w')
    (h : ∃ cl, w.commandList = some cl ∧ r ∈ cl.owned_resources) :
    ∃ cl', w'.commandList = some cl' ∧ r ∈ cl'.owned_resources := by
  induction ops generalizing w with
  | nil =>
    simp only [runRes, Option.some.injEq] at hrun
    rw [← hrun]
    exact h
  | cons op ops ih =>
    simp only [runRes] at hrun
    cases hstep : stepRes op w with
    | none => rw [hstep] at hrun; exact absurd hrun (by simp)
    | some w₁ =>
      rw [hstep] at hrun
      have hop : op ≠ ResOp.dropCommandList := fun he => hops (he ▸ List.mem_cons_self op ops)
      have hops' : ResOp.dropCommandList ∉ ops := fun he => hops (List.mem_cons_of_mem op he)
      exact ih w₁ hops' hrun (stepRes_preserves_retained op w w₁ r hop hstep h)

/-- Helper: a bind operation that passes a resource retains it. -/
theorem stepRes_binds_retained (op : ResOp) (w w' : ArcWorld) (r : ResourceId)
    (hbind : op.binds r = true)
    (hstep : stepRes op w = some w') :
    ∃ cl', w'.commandList = some cl' ∧ r ∈ cl'.owned_resources := by
  match op, hbind, hstep with
  | .bind_compute_pipeline p, hbind, hstep =>
    simp only [ResOp.binds, decide_eq_true_eq] at hbind
    cases hcl : w.commandList with
    | none => rw [stepRes, hcl] at hstep; exact absurd hstep (by simp)
    | some cl =>
      rw [stepRes, hcl] at hstep
      simp only [Option.some.injEq] at hstep
      refine ⟨⟨cl.owned_resources ++ [p]⟩, by rw [← hstep], ?_⟩
      subst hbind
      exact List.mem_append_right _ (by simp)
  | .bind_descriptor_set l s, hbind, hstep =>
    simp only [ResOp.binds, Bool.or_eq_true, decide_eq_true_eq] at hbind
    cases hcl : w.commandList with
    | none => rw [stepRes, hcl] at hstep; exact absurd hstep (by simp)
    | some cl =>
      rw [stepRes, hcl] at hstep
      simp only [Option.some.injEq] at hstep
      refine ⟨⟨cl.owned_resources ++ [l, s]⟩, by rw [← hstep], ?_⟩
      rcases hbind with hbind | hbind <;> subst hbind <;>
        exact List.mem_append_right _ (by simp)

/-- Helper: runRes over an appended list is the composition of the two
runs. -/
theorem runRes_append (xs ys : List ResOp) (w : ArcWorld) :
    runRes (xs ++ ys) w =
      match runRes xs w with
      | some w₁ => runRes ys w₁
      | none => none := by
  induction xs generalizing w with
  | nil => simp [runRes]
  | cons op xs ih =>
    simp only [List.cons_append, runRes]
    cases stepRes op w with
    | some w₁ => exact ih w₁
    | none => rfl

/-- C2: whenever a resource is passed to bind_compute_pipeline or
bind_descriptor_set, the CommandList pushes the shared handle into its
retained-resource list, and for as long as the CommandList instance
exists the resource keeps a positive reference count and is not
destroyed, no matter which external references are dropped afterwards;
and once the CommandList is dropped, a resource with no remaining
external reference is destroyed. -/
theorem bind_retains_resources :
    (∀ (w₀ : ArcWorld) (pre post : List ResOp) (op : ResOp) (r : ResourceId) (w : ArcWorld),
      op.binds r = true →
      ResOp.dropCommandList ∉ post →
      runRes (pre ++ op :: post) w₀ = some w →
      (∃ cl, w.commandList = some cl ∧ r ∈ cl.owned_resources)
        ∧ 1 ≤ refCount w r ∧ ¬ destroyed w r)
    ∧ (∀ (w w' : ArcWorld) (r : ResourceId),
      stepRes ResOp.dropCommandList w = some w' →
      w.external.count r = 0 → destroyed w' r) := by
  constructor
  · intro w₀ pre post op r w hbind hpost hrun
    rw [runRes_append] at hrun
    cases hpre : runRes pre w₀ with
    | none => rw [hpre] at hrun; exact absurd hrun (by simp)
    | some w₁ =>
      rw [hpre] at hrun
      simp only [runRes] at hrun
      cases hstep : stepRes op w₁ with
      | none => rw [hstep] at hrun; exact absurd hrun (by simp)
      | some w₂ =>
        rw [hstep] at hrun
        have hret := runRes_preserves_retained post w₂ w r hpost hrun
          (stepRes_binds_retained op w₁ w₂ r hbind hstep)
        obtain ⟨cl, hcl, hr⟩ := hret
        have hcount : 1 ≤ cl.owned_resources.count r := List.one_le_count_iff.mpr hr
        have hle : 1 ≤ refCount w r := by
          have heq : refCount w r = w.external.count r + cl.owned_resources.count r := by
            rw [refCount, hcl]
          omega
        refine ⟨⟨cl, hcl, hr⟩, hle, ?_⟩
        rw [destroyed]
        omega
  · intro w w' r hstep hext
    cases hcl : w.commandList with
    | none => rw [stepRes, hcl] at hstep; exact absurd hstep (by simp)
    | some cl =>
      rw [stepRes, hcl] at hstep
      simp only [Option.some.injEq] at hstep
      rw [destroyed, refCount, ← hstep]
      simp [hext]

/-- C2 witness: the theorem applied to the concrete run that binds
pipeline 5 and descriptor set 6 with layout 7 and then drops every
external reference to resource 5, and to the concrete world where
dropping the CommandList destroys resource 5. -/
theorem bind_retains_resources_witness :
    ((∃ cl, (⟨[6, 7], some ⟨[5]⟩⟩ : ArcWorld).commandList = some cl
        ∧ 5 ∈ cl.owned_resources)
      ∧ 1 ≤ refCount ⟨[6, 7], some ⟨[5]⟩⟩ 5 ∧ ¬ destroyed ⟨[6, 7], some ⟨[5]⟩⟩ 5)
    ∧ destroyed (⟨[6, 7], none⟩ : ArcWorld) 5 := by
  constructor
  · exact bind_retains_resources.1 ⟨[5, 6, 7], some ⟨[]⟩⟩ []
      [ResOp.dropExternal 5] (ResOp.bind_compute_pipeline 5) 5
      ⟨[6, 7], some ⟨[5]⟩⟩ (by decide) (by decide) (by decide)
  · exact bind_retains_resources.2 ⟨[6, 7], some ⟨[5]⟩⟩ ⟨[6, 7], none⟩ 5
      (by decide) (by decide)

/-- Modifies the element at one index of a list and leaves every other
element unchanged; past the end nothing changes. -/
def listModify {α : Type} (f : α → α) : Nat → List α → List α
  | _, [] => []
  | 0, x :: xs => f x :: xs
  | n + 1, x :: xs => x :: listModify f n xs

/-- Helper: modifying index n leaves every other index unchanged. -/
theorem listModify_get?_of_ne {α : Type} (f : α → α) (n i : Nat) (l : List α)
    (h : i ≠ n) : (listModify f n l).get? i = l.get? i := by
  induction l generalizing n i with
  | nil => cases n <;> rfl
  | cons x xs ih =>
    cases n with
    | zero =>
      cases i with
      | zero => exact absurd rfl h
      | succ i => rfl
    | succ n =>
      cases i with
      | zero => rfl
      | succ i =>
        simp only [listModify, List.get?]
        exact ih n i fun he => h (by rw [he])

/-- Helper: modifying index n applies the function at index n. -/
theorem listModify_get?_self {α : Type} (f : α → α) (n : Nat) (l : List α) :
    (listModify f n l).get? n = (l.get? n).map f := by
  induction l generalizing n with
  | nil => cases n <;> rfl
  | cons x xs ih =>
    cases n with
    | zero => rfl
    | succ n =>
      simp only [listModify, List.get?]
      exact ih n

/-- One native descriptor set of the per-slot array, modelled by the
sequence of descriptor writes applied to it through
update_descriptor_sets, most recent first: each entry is the pair of
the destination binding and the written texture image view. -/
abbrev SlotBindings := List (Nat × Nat)

/-- Embeds DescriptorSet::new (descriptor_set.rs lines 79 to 89): it
builds FRAME_OVERLAP copies of the layout and allocates one native
descriptor set per frame slot from them, each with no writes yet. -/
def DescriptorSet.new : List SlotBindings :=
  (List.range FRAME_OVERLAP).map fun _ => []

/-- Embeds DescriptorSet::write_texture (descriptor_set.rs lines 95 to
108): the single write it issues has dst_set = get_current, the native
set of the current frame slot, so update_descriptor_sets records the
texture image view at the binding on the current slot only. -/
def DescriptorSet.write_texture (sets : List SlotBindings) (r : RState)
    (binding texture_image_view : Nat) : List SlotBindings :=
  listModify (fun writes => (binding, texture_image_view) :: writes) r.frame_number sets

/-- C4: DescriptorSet::new allocates exactly FRAME_OVERLAP native
descriptor sets, one per frame slot, and write_texture updates the
entry of the current frame slot only: every other slot, in particular
slot 1 while the current slot is 0 and conversely, keeps its binding
state unchanged, while the current slot receives the write. -/
theorem descriptor_write_isolation :
    DescriptorSet.new.length = FRAME_OVERLAP
    ∧ (∀ (sets : List SlotBindings) (r : RState) (b t slot : Nat),
        slot ≠ r.frame_number →
        (DescriptorSet.write_texture sets r b t).get? slot = sets.get? slot)
    ∧ (∀ (sets : List SlotBindings) (r : RState) (b t : Nat),
        (DescriptorSet.write_texture sets r b t).get? r.frame_number
          = (sets.get? r.frame_number).map fun writes => (b, t) :: writes) := by
  refine ⟨by simp [DescriptorSet.new], ?_, ?_⟩
  · intro sets r b t slot h
    exact listModify_get?_of_ne _ _ _ sets h
  · intro sets r b t
    exact listModify_get?_self _ _ sets

/-- C4 witness: the theorem applied to the concrete descriptor set with
two freshly allocated slots, the frame state at slot 0, and a write of
texture view 9 at binding 0: slot 1 is unchanged and slot 0 records the
write. -/
theorem descriptor_write_isolation_witness :
    (DescriptorSet.write_texture DescriptorSet.new ⟨0, 0⟩ 0 9).get? 1
        = DescriptorSet.new.get? 1
    ∧ (DescriptorSet.write_texture DescriptorSet.new ⟨0, 0⟩ 0 9).get? 0
        = (DescriptorSet.new.get? 0).map fun writes => (0, 9) :: writes :=
  ⟨descriptor_write_isolation.2.1 DescriptorSet.new ⟨0, 0⟩ 0 9 1 (by decide),
    descriptor_write_isolation.2.2 DescriptorSet.new ⟨0, 0⟩ 0 9⟩

/-- Identifies the device-level objects created by Renderer::new and
destroyed by the Drop impl. -/
inductive VkObject where
  | inst
  | debugMessenger
  | surface
  | device
  | swapchain
  | swapchainImageViews
  | commandPool
  | allocator
  | descriptorPool
deriving DecidableEq, Fintype

/-- Embeds the order in which Renderer::new (renderer.rs lines 256 to
426) creates the device-level objects: instance (line 279), debug
messenger (line 294), surface (line 296), device (line 341), swapchain
(line 369), swapchain image views (line 374), command pool (line 380),
allocator (line 383), descriptor pool (line 398). -/
def constructionOrder : List VkObject :=
  [.inst, .debugMessenger, .surface, .device, .swapchain,
    .swapchainImageViews, .commandPool, .allocator, .descriptorPool]

/-- One step of Renderer teardown. -/
inductive TeardownStep where
  | deviceWaitIdle
  | destroy (h : VkObject)
deriving DecidableEq

/-- Embeds impl Drop for Renderer (renderer.rs lines 484 to 501) as the
sequence of native calls the drop body makes, in source order:
device_wait_idle, then destroy descriptor pool, command pool, the
swapchain image views, swapchain, surface, device, debug messenger,
instance.  The allocator field is not destroyed in the body. -/
def rendererDrop : List TeardownStep :=
  [.deviceWaitIdle, .destroy .descriptorPool, .destroy .commandPool,
    .destroy .swapchainImageViews, .destroy .swapchain, .destroy .surface,
    .destroy .device, .destroy .debugMessenger, .destroy .inst]

/-- The objects the Drop body destroys, in destruction order. -/
def destructionOrder : List VkObject :=
  rendererDrop.filterMap fun s =>
    match s with
    | .deviceWaitIdle => none
    | .destroy h => some h

/-- Decides whether the first object is created from the second in
Renderer::new: the debug messenger, surface and device are created from
the instance; the swapchain from the device and the surface; the image
views from the device and the swapchain; the command pool, descriptor
pool and allocator from the device (the allocator also from the
instance). -/
def createdFrom : VkObject → VkObject → Bool
  | .debugMessenger, .inst => true
  | .surface, .inst => true
  | .device, .inst => true
  | .swapchain, .device => true
  | .swapchain, .surface => true
  | .swapchainImageViews, .device => true
  | .swapchainImageViews, .swapchain => true
  | .commandPool, .device => true
  | .allocator, .inst => true
  | .allocator, .device => true
  | .descriptorPool, .device => true
  | _, _ => false

/-- C6 counterexample: the claim says teardown destroys the objects in
strict reverse of construction order; even restricted to the objects
the drop body does destroy (every constructed object except the
allocator), the destruction sequence is not the reverse of the
construction sequence, because the surface is destroyed before the
device although it was also constructed before the device. -/
theorem teardown_not_strict_reverse :
    destructionOrder
      ≠ (constructionOrder.filter fun h => destructionOrder.contains h).reverse := by
  decide

/-- C6 amended: teardown first blocks on device_wait_idle, then
destroys descriptor pool, command pool, swapchain image views,
swapchain, surface, device, debug messenger and instance, in that
order; this is reverse-of-construction except that the surface is
destroyed just before the device instead of just after it (and the
allocator is not destroyed in the drop body), and every consumer among
them is still destroyed before each object it was created from. -/
theorem teardown_order_spec :
    rendererDrop.head? = some TeardownStep.deviceWaitIdle
    ∧ destructionOrder =
        [.descriptorPool, .commandPool, .swapchainImageViews, .swapchain,
          .surface, .device, .debugMessenger, .inst]
    ∧ (∀ c p : VkObject, createdFrom c p = true → c ≠ VkObject.allocator →
        destructionOrder.indexOf c < destructionOrder.indexOf p) := by
  refine ⟨rfl, by decide, by decide⟩

/-- C6 witness: the amended theorem applied to the concrete pair of the
swapchain and the device it was created from. -/
theorem teardown_order_spec_witness :
    destructionOrder.indexOf VkObject.swapchain
      < destructionOrder.indexOf VkObject.device :=
  teardown_order_spec.2.2 VkObject.swapchain VkObject.device (by decide) (by decide)

/-- Embeds vk Extent3D. -/
structure Extent3D where
  width : Nat
  height : Nat
  depth : Nat
deriving DecidableEq

/-- Embeds vk Extent2D. -/
structure Extent2D where
  width : Nat
  height : Nat
deriving DecidableEq

/-- Embeds the fields of Texture (image.rs lines 18 to 25) visible to
copy_to_framebuffer: the image handle, the stored extent and the
format; the allocation and view handles are opaque here. -/
structure Texture where
  image : Nat
  extent : Extent3D
  format : Nat
deriving DecidableEq

/-- One command recorded into the current command buffer by the
copy_to_framebuffer composite. -/
inductive Cmd where
  | pipelineBarrier (b : ImageMemoryBarrier2)
  | blitImage (src dst : Nat) (srcSize dstSize : Extent2D)
deriving DecidableEq

/-- Embeds CommandList::copy_image_to_image (command_list.rs lines 92
to 124): records one blit whose source region runs from the origin to
src_size and whose destination region runs from the origin to
dst_size. -/
def copy_image_to_image (source dest : Nat) (src_size dst_size : Extent2D) : Cmd :=
  .blitImage source dest src_size dst_size

/-- Embeds CommandList::copy_to_framebuffer (command_list.rs lines 126
to 131): transitions the texture image from GENERAL to
TRANSFER_SRC_OPTIMAL, the current swapchain image from UNDEFINED to
TRANSFER_DST_OPTIMAL, blits with the hard-coded 800 by 600 source and
destination extents, then transitions the swapchain image to
PRESENT_SRC_KHR.  The extent field of the texture is never read. -/
def copy_to_framebuffer (swapchain_img : Nat) (texture : Texture) : List Cmd :=
  [Cmd.pipelineBarrier (transition_image_layout texture.image
      ImageLayout.GENERAL ImageLayout.TRANSFER_SRC_OPTIMAL),
    Cmd.pipelineBarrier (transition_image_layout swapchain_img
      ImageLayout.UNDEFINED ImageLayout.TRANSFER_DST_OPTIMAL),
    copy_image_to_image texture.image swapchain_img ⟨800, 600⟩ ⟨800, 600⟩,
    Cmd.pipelineBarrier (transition_image_layout swapchain_img
      ImageLayout.TRANSFER_DST_OPTIMAL ImageLayout.PRESENT_SRC_KHR)]

/-- Decides that a command, when it is a blit, uses exactly the 800 by
600 extents for both regions. -/
def Cmd.blitExtentsFixed : Cmd → Bool
  | .blitImage _ _ srcSize dstSize => srcSize == ⟨800, 600⟩ && dstSize == ⟨800, 600⟩
  | _ => true

/-- C10: for every texture, copy_to_framebuffer records its blit with
fixed 800 by 600 source and destination extents, and the stored extent
field of the texture never influences the recorded commands: two
textures with the same image handle and format but arbitrary different
extents produce identical command sequences. -/
theorem copy_to_framebuffer_fixed_extent (swapchain_img img fmt : Nat)
    (e e' : Extent3D) :
    copy_to_framebuffer swapchain_img ⟨img, e, fmt⟩
        = copy_to_framebuffer swapchain_img ⟨img, e', fmt⟩
    ∧ (copy_to_framebuffer swapchain_img ⟨img, e, fmt⟩).all Cmd.blitExtentsFixed = true
    ∧ copy_image_to_image img swapchain_img ⟨800, 600⟩ ⟨800, 600⟩
        ∈ copy_to_framebuffer swapchain_img ⟨img, e, fmt⟩ := by
  refine ⟨rfl, ?_, ?_⟩
  · simp [copy_to_framebuffer, copy_image_to_image, Cmd.blitExtentsFixed, List.all]
  · simp [copy_to_framebuffer, copy_image_to_image]

/-- Modelled from the spec: CommandList::flash_screen is absent from
the source tree (command_list.rs has no such method and no caller
references it); spec sections 4.3 and 8 define the clear-color blue
channel it uses as abs(sin(frameNumber / 120)), a pure function of the
frame number, which this definition follows over the reals. -/
noncomputable def flash_screen_blue (frameNumber : Nat) : ℝ :=
  |Real.sin ((frameNumber : ℝ) / 120)|

/-- Helper: the sine of 1 lies strictly between 0.831 and 0.851,
obtained from the cubic Taylor bounds at 1/2 and the double-angle
identity. -/
theorem sin_one_between : 831 / 1000 < Real.sin 1 ∧ Real.sin 1 < 851 / 1000 := by
  have habs : |(1 / 2 : ℝ)| = 1 / 2 := abs_of_nonneg (by norm_num)
  have hle : |(1 / 2 : ℝ)| ≤ 1 := by rw [habs]; norm_num
  have hs := Real.sin_bound hle
  have hc := Real.cos_bound hle
  rw [habs] at hs hc
  have hs_pair := abs_le.mp hs
  have hc_pair := abs_le.mp hc
  have hs_lo : (731 / 1536 : ℝ) ≤ Real.sin (1 / 2) := by
    have h := hs_pair.1
    norm_num at h ⊢
    linarith
  have hs_hi : Real.sin (1 / 2) ≤ (741 / 1536 : ℝ) := by
    have h := hs_pair.2
    norm_num at h ⊢
    linarith
  have hc_lo : (1339 / 1536 : ℝ) ≤ Real.cos (1 / 2) := by
    have h := hc_pair.1
    norm_num at h ⊢
    linarith
  have hc_hi : Real.cos (1 / 2) ≤ (1349 / 1536 : ℝ) := by
    have h := hc_pair.2
    norm_num at h ⊢
    linarith
  have hpy := Real.sin_sq_add_cos_sq (1 / 2)
  have h12 : (2 : ℝ) * (1 / 2) = 1 := by norm_num
  have hdouble := Real.sin_two_mul (1 / 2)
  rw [h12] at hdouble
  have hd_lo : (598 / 1536 : ℝ) ≤ Real.cos (1 / 2) - Real.sin (1 / 2) := by linarith
  have hd_hi : Real.cos (1 / 2) - Real.sin (1 / 2) ≤ (618 / 1536 : ℝ) := by linarith
  have hsq_hi : (Real.cos (1 / 2) - Real.sin (1 / 2)) ^ 2 ≤ (618 / 1536 : ℝ) ^ 2 := by
    nlinarith
  have hsq_lo : ((598 / 1536 : ℝ)) ^ 2 ≤ (Real.cos (1 / 2) - Real.sin (1 / 2)) ^ 2 := by
    nlinarith
  have h2sc : 2 * Real.sin (1 / 2) * Real.cos (1 / 2)
      = 1 - (Real.cos (1 / 2) - Real.sin (1 / 2)) ^ 2 := by
    linear_combination hpy
  rw [hdouble, h2sc]
  constructor
  · nlinarith
  · nlinarith

/-- C8 (spec-modelled): the flash_screen clear-color blue channel is
the pure function abs(sin(frameNumber / 120)) of the frame number; in
particular at frame 120 it equals abs(sin 1), which is within 0.01 of
0.841. -/
theorem flash_screen_blue_spec :
    (∀ n : Nat, flash_screen_blue n = |Real.sin ((n : ℝ) / 120)|)
    ∧ flash_screen_blue 120 = |Real.sin 1|
    ∧ |flash_screen_blue 120 - 841 / 1000| < 1 / 100 := by
  have h120 : flash_screen_blue 120 = |Real.sin 1| := by
    rw [flash_screen_blue]
    norm_num
  refine ⟨fun n => rfl, h120, ?_⟩
  rw [h120]
  have hb := sin_one_between
  rw [abs_of_pos (by linarith [hb.1] : (0 : ℝ) < Real.sin 1)]
  rw [abs_lt]
  constructor
  · linarith [hb.1]
  · linarith [hb.2]

end Patoka
